import Mathlib

/-!
Verification of the agent-transactional-chat repository ("agente transaccional"):
a conversational money-transfer system consisting of an api-agent service
(conversation state machine over LangGraph plus entity-extraction validators and a
RabbitMQ publisher) and an api-transactions service (a RabbitMQ consumer that
validates transfer requests, mutates balances and records transactions).

The Python sources are shallowly embedded here:
pure functions become Lean functions over `List Char`/`String`, `Option` and `Rat`
(Python `float` values arising in the modelled paths are finite decimals, which we
model exactly as rationals); functions with effects (LLM calls, database access,
broker publishes) take explicit oracle/environment parameters and return the new
state together with a trace of the effects; Python exceptions become explicit
error values.  Character-class predicates model the ASCII behaviour of CPython
(`str.lower`, `str.isdigit`, regex classes); every string manipulated by the
claims under study is ASCII or fixed Spanish text.
-/

/-! ## Character helpers (ASCII models of CPython / `re` character classes) -/

/-- Model of the regex class `\w` (word character), ASCII fragment:
letters, digits and underscore. -/
def isWordChar (c : Char) : Bool := c.isAlphanum || c = '_'

/-- ASCII model of `str.lower` applied to one character: uppercase letters
A-Z map to a-z, every other character is unchanged. -/
def pyLower (c : Char) : Char :=
  match c with
  | 'A' => 'a' | 'B' => 'b' | 'C' => 'c' | 'D' => 'd' | 'E' => 'e' | 'F' => 'f'
  | 'G' => 'g' | 'H' => 'h' | 'I' => 'i' | 'J' => 'j' | 'K' => 'k' | 'L' => 'l'
  | 'M' => 'm' | 'N' => 'n' | 'O' => 'o' | 'P' => 'p' | 'Q' => 'q' | 'R' => 'r'
  | 'S' => 's' | 'T' => 't' | 'U' => 'u' | 'V' => 'v' | 'W' => 'w' | 'X' => 'x'
  | 'Y' => 'y' | 'Z' => 'z'
  | c => c

/-- `str.lower` over a character list. -/
def lowerL (l : List Char) : List Char := l.map pyLower

/-- `str.strip()` over a character list: drop whitespace on both ends. -/
def stripL (l : List Char) : List Char :=
  ((l.dropWhile Char.isWhitespace).reverse.dropWhile Char.isWhitespace).reverse

/-- Python `pat in s` (substring containment): does `pat` start at the head? -/
def startsWithL : List Char → List Char → Bool
  | [], _ => true
  | _ :: _, [] => false
  | p :: ps, c :: cs => p == c && startsWithL ps cs

/-- Python `pat in s` (substring containment) over character lists. -/
def containsL (s pat : List Char) : Bool :=
  match s with
  | [] => pat.isEmpty
  | _ :: rest => startsWithL pat s || containsL rest pat

/-! ## Entity Extractor: `src/api-agent/src/modules/conversations/utils/validators.py` -/

/-- `validate_phone_number` (validators.py lines 4-16): strip `[\s\-\(\)]`,
require a nonempty all-digit string (Python `str.isdigit`) of length exactly 10.
Returns `(ok, reason)`. -/
def validate_phone_number (phone : String) : Bool × Option String :=
  let cleaned := phone.data.filter fun c =>
    !(c.isWhitespace || c == '-' || c == '(' || c == ')')
  if !(!cleaned.isEmpty && cleaned.all Char.isDigit) then
    (false, some "El número de teléfono debe contener solo dígitos")
  else if cleaned.length ≠ 10 then
    (false, some ("El número de teléfono debe tener exactamente 10 dígitos. Se recibieron "
      ++ toString cleaned.length ++ " dígitos."))
  else
    (true, none)

/-- Is the neighbour character (`none` = string edge) a valid `\b` boundary side,
i.e. not a word character? -/
def nbOk : Option Char → Bool
  | none => true
  | some c => !isWordChar c

/-- Does `\b\d{10}\b` match at the head of `s`, where `prev` is the character
just before `s` (`none` at the start of the text)? -/
def matchTenAt (prev : Option Char) (s : List Char) : Bool :=
  nbOk prev && (s.take 10).length == 10 && (s.take 10).all Char.isDigit
    && nbOk (s.drop 10).head?

/-- Leftmost match of `re.findall(r"\b\d{10}\b", text)[0]`: scan left to right,
keeping the character just consumed as the boundary context. -/
def findTenRun : Option Char → List Char → Option (List Char)
  | _, [] => none
  | prev, c :: rest =>
    if matchTenAt prev (c :: rest) then some ((c :: rest).take 10)
    else findTenRun (some c) rest

/-- `extract_phone_number` (validators.py lines 19-31) over a character list:
first try the regex `\b\d{10}\b`; otherwise strip all non-digits and accept the
result when it has exactly 10 digits, or its trailing 10 digits when it has 11. -/
def extractPhoneL (s : List Char) : Option (List Char) :=
  match findTenRun none s with
  | some r => some r
  | none =>
    let cleaned := s.filter Char.isDigit
    if cleaned.length = 10 then some cleaned
    else if cleaned.length = 11 then some (cleaned.drop 1)
    else none

/-- `extract_phone_number` on strings. -/
def extract_phone_number (text : String) : Option String :=
  (extractPhoneL text.data).map List.asString

/-- The maximal digit runs of a text, in order (used to state the spec's
"digit run" property). -/
def digitRunsAux : List Char → List Char → List (List Char)
  | [], acc => if acc.isEmpty then [] else [acc.reverse]
  | c :: rest, acc =>
    if c.isDigit then digitRunsAux rest (c :: acc)
    else if acc.isEmpty then digitRunsAux rest []
    else acc.reverse :: digitRunsAux rest []

/-- The maximal digit runs of a text. -/
def digitRuns (l : List Char) : List (List Char) := digitRunsAux l []

/-- `run` occurs in `s` as a 10-digit substring delimited by regex word
boundaries (`\b\d{10}\b`): its neighbours, when they exist, are not word
characters. -/
def IsBoundaryTenRun (s run : List Char) : Prop :=
  ∃ pre post, s = pre ++ run ++ post ∧ run.length = 10 ∧
    run.all Char.isDigit = true ∧ nbOk pre.getLast? = true ∧ nbOk post.head? = true

/-- The boundary context seen by `findTenRun` after consuming `pre`, when the
character before `pre` was `prev`. -/
def lastOr (pre : List Char) (prev : Option Char) : Option Char :=
  match pre.getLast? with
  | some c => some c
  | none => prev

/-! ### `validate_amount` (validators.py lines 34-51) -/

/-- `re.sub(r",(\d{1,2})$", r".\1", cleaned)`: when the text ends in a comma
followed by exactly one or two digits, that comma becomes a decimal point. -/
def commaFix (l : List Char) : List Char :=
  match l.reverse with
  | [] => l
  | [_] => l
  | d1 :: c2 :: rest2 =>
    if c2 = ',' then
      if d1.isDigit then (d1 :: '.' :: rest2).reverse else l
      else
      match rest2 with
      | [] => l
      | c3 :: rest3 =>
        if c3 = ',' then
          if d1.isDigit && c2.isDigit then (d1 :: c2 :: '.' :: rest3).reverse else l
        else l

/-- The multi-dot normalisation: when more than one '.' is present, join all
parts except the last without dots and keep a single '.' before the last part
(`"".join(parts[:-1]) + "." + parts[-1]`). -/
def dotFix (l : List Char) : List Char :=
  if l.count '.' ≤ 1 then l
  else
    let r := l.reverse
    let lastSeg := r.takeWhile fun c => !(c == '.')
    let beforeDot := (r.dropWhile fun c => !(c == '.')).tail
    (beforeDot.reverse.filter fun c => !(c == '.')) ++ '.' :: lastSeg.reverse

/-- The token matched by `\d+\.?\d*` starting at `s` (whose head is a digit):
a maximal digit run, then an optional dot with further digits. -/
def numToken (s : List Char) : List Char :=
  let ds := s.takeWhile Char.isDigit
  match s.dropWhile Char.isDigit with
  | '.' :: rest2 => ds ++ '.' :: rest2.takeWhile Char.isDigit
  | _ => ds

/-- `re.findall(r"\d+\.?\d*", s)[0]`: the leftmost number token, if any digit
occurs in `s`. -/
def findFirstNum : List Char → Option (List Char)
  | [] => none
  | c :: rest => if c.isDigit then some (numToken (c :: rest)) else findFirstNum rest

/-- Numeric value of a digit string (most significant digit first). -/
def digitsToNat (l : List Char) : Nat :=
  l.foldl (fun acc c => acc * 10 + (c.toNat - 48)) 0

/-- Value of a `\d+\.?\d*` token as an exact rational (models Python `float`
on the finite decimals produced by the validators). -/
def parseToken (t : List Char) : ℚ :=
  let intPart := t.takeWhile Char.isDigit
  match t.dropWhile Char.isDigit with
  | '.' :: frac => (digitsToNat intPart : ℚ) + (digitsToNat frac : ℚ) / (10 : ℚ) ^ frac.length
  | _ => (digitsToNat intPart : ℚ)

/-- `validate_amount` (validators.py lines 34-51): lower-case, strip `[\s\$]`,
normalise a trailing `,dd` decimal comma and multiple dots, find the first
`\d+\.?\d*` token and require its value to be positive.  Returns
`(ok, amount, reason)`.  The Python `float` call cannot raise on a token of
this shape, so the `except ValueError` branch is unreachable and not modelled. -/
def validate_amount (amount_text : String) : Bool × Option ℚ × Option String :=
  match findFirstNum (dotFix (commaFix ((amount_text.data.map pyLower).filter fun c =>
      !(c.isWhitespace || c == '$')))) with
  | none => (false, none, some "No se pudo encontrar un monto válido en tu mensaje")
  | some tok =>
    if parseToken tok ≤ 0 then (false, none, some "El monto debe ser mayor a 0")
    else (true, some (parseToken tok), none)

/-- `extract_amount` (validators.py lines 54-58). -/
def extract_amount (text : String) : Option ℚ :=
  match validate_amount text with
  | (true, a, _) => a
  | (false, _, _) => none

/-! ## Conversation agent: `src/api-agent/src/modules/conversations/agent/transaction_agent.py`

The LangGraph `AgentState` is a `TypedDict` without reducers, so each node's
returned dictionary overwrites the state key-by-key; nodes are therefore
modelled as functions `AgentState → AgentState`.  The two effectful
collaborators — the LLM (`self.llm.invoke`) and the user-balance lookup
(`self._get_user_balance`) — are oracle parameters; the LLM oracle receives the
whole state, which subsumes the prompt built by `_get_system_prompt`. -/

/-- Message roles in the conversation history. -/
inductive Role
  | user
  | assistant
deriving DecidableEq, Repr

/-- One conversation message (`{"role": ..., "content": ...}`). -/
structure Msg where
  role : Role
  content : String
deriving DecidableEq, Repr

/-- The LangGraph agent state (`agent_state.py`).  `user_id` and
`conversation_id` are numeric identifiers. -/
structure AgentState where
  messages : List Msg
  recipient_phone : Option String
  amount : Option ℚ
  currency : String
  confirmation_pending : Bool
  transaction_id : Option String
  error : Option String
  user_id : Option Nat
  conversation_id : Option Nat
deriving DecidableEq

/-- Python truthiness of an optional string (`None` and `""` are falsy). -/
def truthyS : Option String → Bool
  | none => false
  | some s => !(s == "")

/-- Python truthiness of an optional number (`None` and `0.0` are falsy). -/
def truthyQ : Option ℚ → Bool
  | none => false
  | some q => decide (q ≠ 0)

/-- `_get_last_user_message`: content of the most recent user message. -/
def lastUserMessage (msgs : List Msg) : Option String :=
  (msgs.reverse.find? fun m => m.role == Role.user).map Msg.content

/-- Content of the most recent assistant message (`_check_confirmation`). -/
def lastAssistantMessage (msgs : List Msg) : Option String :=
  (msgs.reverse.find? fun m => m.role == Role.assistant).map Msg.content

/-- Append an assistant reply to the history. -/
def assistantMsg (s : String) : Msg := { role := Role.assistant, content := s }

/-! ### Python number formatting used in the agent's messages -/

/-- Decimal digits of a natural number, most significant first. -/
def natDigitsAux : Nat → Nat → List Char
  | 0, _ => []
  | fuel + 1, n => if n = 0 then [] else natDigitsAux fuel (n / 10) ++ [Char.ofNat (48 + n % 10)]

/-- Decimal digits of a natural number, most significant first. -/
def natDigits (n : Nat) : List Char := if n = 0 then ['0'] else natDigitsAux n n

/-- Insert a comma after every three characters of a reversed digit list
(thousands grouping of `{:,}` formatting). -/
def group3 : List Char → List Char
  | a :: b :: c :: d :: rest => a :: b :: c :: ',' :: group3 (d :: rest)
  | l => l

/-- Round to the nearest integer, ties to even (the rounding of Python's
`format(x, ",.0f")` on exactly-representable values). -/
def roundHalfEvenZ (q : ℚ) : ℤ :=
  let f := q.floor
  let r := q - (f : ℚ)
  if r < 1 / 2 then f
  else if 1 / 2 < r then f + 1
  else if f % 2 = 0 then f else f + 1

/-- Python `f"{q:,.0f}"`: round to an integer, group thousands with commas. -/
def fmtMoney (q : ℚ) : String :=
  let z := roundHalfEvenZ q
  let body := (group3 (natDigits z.natAbs).reverse).reverse
  if z < 0 then List.asString ('-' :: body) else List.asString body

/-- Smallest exponent `k ≤ fuel + start` with `d ∣ 10 ^ k` (for rendering a
decimal-denominator rational in positional notation). -/
def decExpAux : Nat → Nat → Nat → Nat
  | 0, _, k => k
  | fuel + 1, d, k => if d ∣ 10 ^ k then k else decExpAux fuel d (k + 1)

/-- Number of decimal places needed for denominator `d`. -/
def decExp (d : Nat) : Nat := decExpAux 60 d 0

/-- Python `str(float)` for the non-negative finite decimals handled by the
validators: `str(100.0) = "100.0"`, `str(0.5) = "0.5"`.  (Scientific notation
for extreme magnitudes is outside the modelled range.) -/
def floatReprNN (q : ℚ) : String :=
  let k := decExp q.den
  if k = 0 then List.asString (natDigits q.num.natAbs ++ ['.', '0'])
  else
    let total := q.num.natAbs * 10 ^ k / q.den
    let ds0 := natDigits total
    let ds := List.replicate (k + 1 - ds0.length) '0' ++ ds0
    List.asString (ds.take (ds.length - k) ++ '.' :: ds.drop (ds.length - k))

/-- Python `str(float)` including the sign. -/
def floatRepr (q : ℚ) : String :=
  if q < 0 then "-" ++ floatReprNN (-q) else floatReprNN q

/-! ### Keyword classifiers (`_is_balance_query`, `is_transfer_related`) -/

/-- Balance-query keywords (`transaction_agent.py` lines 87-107). -/
def balanceKeywords : List String :=
  ["saldo", "balance", "cuánto tengo", "cuanto tengo", "cuánto dinero tengo",
   "cuanto dinero tengo", "cuánto tengo disponible", "cuanto tengo disponible",
   "mi saldo", "ver saldo", "consultar saldo", "cuánto es mi saldo",
   "cuanto es mi saldo", "dime mi saldo", "muéstrame mi saldo",
   "muestrame mi saldo", "quiero saber mi saldo", "cuánto tengo en mi cuenta",
   "cuanto tengo en mi cuenta"]

/-- `_is_balance_query` (transaction_agent.py lines 78-109): empty messages are
not balance queries; otherwise look for any balance keyword as a substring of
the lowered, stripped message. -/
def isBalanceQuery (message : String) : Bool :=
  if message == "" then false
  else
    let ml := stripL (lowerL message.data)
    balanceKeywords.any fun k => containsL ml k.data

/-- Clearly-off-topic keywords (validators.py `is_transfer_related`). -/
def clearlyOutOfContext : List String :=
  ["distancia del sol", "distancia de la luna", "distancia del sol a la luna",
   "distancia entre el sol y la luna", "tamaño del sol", "tamaño de la luna",
   "planeta", "planetas", "estrella", "estrellas", "galaxia", "galaxias",
   "universo", "astronomía", "astronomia", "astronauta", "nasa", "satélite",
   "satelite", "fórmula química", "formula quimica", "ecuación física",
   "ecuacion fisica", "teorema matemático", "teorema matematico",
   "año de independencia", "año de independencia de", "capital de",
   "país más grande", "pais mas grande", "temperatura en", "clima en",
   "pronóstico del tiempo", "pronostico del tiempo"]

/-- Greeting keywords (validators.py `is_transfer_related`). -/
def greetingKeywords : List String :=
  ["hola", "hi", "hello", "buenos días", "buenos dias", "buenas tardes",
   "buenas noches", "good morning", "good afternoon", "good evening", "hey",
   "saludos", "greetings", "qué tal", "que tal", "what\x27s up"]

/-- Help keywords (validators.py `is_transfer_related`). -/
def helpKeywords : List String :=
  ["ayuda", "help", "cómo", "como", "how", "qué", "que", "what", "dime",
   "cuéntame", "cuentame", "tell me", "explicar", "explain", "paso", "pasos",
   "proceso", "instrucciones", "siguiente", "next", "luego", "después",
   "despues", "after", "hacer", "do"]

/-- `is_transfer_related` (validators.py lines 62-161): permissive classifier;
rejects only the clearly-off-topic keywords.  The greeting/help branches and
the final default all accept. -/
def is_transfer_related (message : String) (conversation_context : Option (List Msg)) : Bool :=
  let ml := stripL (lowerL message.data)
  if ml.isEmpty then true
  else
    let hasCtx := match conversation_context with
      | some ctx => decide (1 < ctx.length)
      | none => false
    if clearlyOutOfContext.any (fun k => containsL ml k.data) then false
    else if hasCtx then true
    else if greetingKeywords.any (fun k => containsL ml k.data) then true
    else if helpKeywords.any (fun k => containsL ml k.data) then true
    else true

/-! ### Graph nodes -/

/-- Failures of the language-generation capability (`openai` exceptions). -/
inductive LLMErr
  | rateLimit (msg : String)
  | permissionDenied (msg : String)
  | other (msg : String)
deriving DecidableEq

/-- Oracles for the agent's two effectful collaborators. -/
structure AgentOracle where
  llm : AgentState → Except LLMErr String
  userBalance : Option Nat → Option ℚ × String

/-- Fixed fallback for `RateLimitError`. -/
def rateLimitMsg : String :=
  "Lo siento, el servicio de IA está temporalmente sobrecargado debido a muchas solicitudes. Por favor, espera unos minutos e intenta de nuevo. Mientras tanto, puedes consultar tu saldo escribiendo \x27saldo\x27 o \x27cuánto tengo\x27."

/-- Fixed fallback for a region-restriction `PermissionDeniedError`. -/
def regionCfgMsg : String :=
  "Lo siento, hay un problema de configuración con el servicio de IA. Por favor, contacta al administrador del sistema."

/-- Fixed generic fallback. -/
def genericErrMsg : String :=
  "Lo siento, hubo un error al procesar tu mensaje. Por favor, intenta de nuevo."

/-- The user-safe message substituted for each LLM failure
(the shared `except` ladder of `_process_message` / `_check_confirmation`). -/
def llmFallback : LLMErr → String
  | .rateLimit _ => rateLimitMsg
  | .permissionDenied m =>
    if containsL m.data "unsupported_country_region_territory".data
        || containsL m.data "Country, region, or territory not supported".data then
      regionCfgMsg
    else genericErrMsg
  | .other _ => genericErrMsg

/-- Fixed redirect for off-topic messages. -/
def redirectMsg : String :=
  "Solo puedo ayudarte con transferencias de dinero y consultas de saldo. ¿Te gustaría hacer una transferencia o consultar tu saldo?"

/-- `_process_message` (transaction_agent.py lines 156-243): a no-op while a
confirmation is pending; otherwise answers balance queries from the balance
oracle, redirects clearly-off-topic messages, and else appends the LLM reply
(or a fixed fallback on LLM failure). -/
def processMessageNode (o : AgentOracle) (st : AgentState) : AgentState :=
  let last := lastUserMessage st.messages
  if st.confirmation_pending then st
  else if (match last with
           | some m => !(m == "") && isBalanceQuery m
           | none => false) then
    let bc := o.userBalance st.user_id
    let resp := match bc.1 with
      | some b => "Tu saldo actual es $" ++ fmtMoney b ++ " " ++ bc.2 ++ "."
      | none => "No pude obtener tu saldo en este momento. Por favor, intenta más tarde."
    { st with messages := st.messages ++ [assistantMsg resp] }
  else if (match last with
           | some m => !(m == "") && !is_transfer_related m none
           | none => false) then
    { st with messages := st.messages ++ [assistantMsg redirectMsg] }
  else
    match o.llm st with
    | .ok text => { st with messages := st.messages ++ [assistantMsg text] }
    | .error e => { st with messages := st.messages ++ [assistantMsg (llmFallback e)] }

/-- `_should_check_confirmation` (lines 143-154): `true` routes the turn to
`check_confirmation`, `false` to `extract_info`. -/
def shouldCheckConfirmation (st : AgentState) : Bool :=
  if st.confirmation_pending then true
  else
    match lastUserMessage st.messages with
    | some m =>
      truthyS st.recipient_phone && truthyQ st.amount && !(m == "")
        && (lowerL (stripL m.data) == "confirmo".data)
    | none => false

/-- `_extract_info` (lines 296-330): extract a phone and an amount from the
last user message for whichever field is still unset; extracted values that
fail validation overwrite the field with `None`.  The amount is re-validated
through `str(amount)` as in the source. -/
def extractInfoNode (st : AgentState) : AgentState :=
  match lastUserMessage st.messages with
  | none => st
  | some m =>
    if m == "" then st
    else
      let phoneAfter : Option String :=
        if !truthyS st.recipient_phone then
          match extract_phone_number m with
          | some p =>
            if !(p == "") then
              if (validate_phone_number p).1 then some p else none
            else st.recipient_phone
          | none => st.recipient_phone
        else st.recipient_phone
      let amountAfter : Option ℚ :=
        if !truthyQ st.amount then
          match extract_amount m with
          | some a =>
            if decide (a ≠ 0) then
              match validate_amount (floatRepr a) with
              | (true, v, _) => v
              | (false, _, _) => none
            else st.amount
          | none => st.amount
        else st.amount
      { st with recipient_phone := phoneAfter, amount := amountAfter }

/-- `_after_extraction` (lines 332-335): `true` iff both fields are now
(truthily) set, routing to `check_confirmation`. -/
def afterExtraction (st : AgentState) : Bool :=
  truthyS st.recipient_phone && truthyQ st.amount

/-- `_check_confirmation` (lines 337-430): when both fields are set and no
confirmation is pending, and the last assistant message does not already
mention the keyword, ask the LLM for a confirmation prompt and set
`confirmation_pending`; on LLM failure append the fallback and leave
`confirmation_pending` false.  In every other case the state is unchanged. -/
def checkConfirmationNode (o : AgentOracle) (st : AgentState) : AgentState :=
  if truthyS st.recipient_phone && truthyQ st.amount && !st.confirmation_pending then
    let lastA := lastAssistantMessage st.messages
    if (match lastA with
        | none => true
        | some m => (m == "") || !containsL (lowerL m.data) "confirmo".data) then
      match o.llm st with
      | .ok text =>
        { st with messages := st.messages ++ [assistantMsg text],
                  confirmation_pending := true }
      | .error e =>
        { st with messages := st.messages ++ [assistantMsg (llmFallback e)],
                  confirmation_pending := false }
    else st
  else st

/-- Result of `_is_confirmed`. -/
inductive ConfirmResult
  | yes
  | no
  | waiting
deriving DecidableEq, Repr

/-- The deny keywords (`DENY_WORDS`, transaction_agent.py line 24). -/
def DENY_WORDS : List String := ["no", "cancelar", "cancel", "nope"]

/-- `_is_confirmed` (lines 432-446): `yes` when the stripped, lowered last user
message is exactly `"confirmo"`; else `no` when it contains a deny keyword;
else `waiting` (also when there is no nonempty user message). -/
def isConfirmedFn (msgs : List Msg) : ConfirmResult :=
  match lastUserMessage msgs with
  | none => ConfirmResult.waiting
  | some m =>
    if m == "" then ConfirmResult.waiting
    else
      let cleaned := lowerL (stripL m.data)
      if cleaned == "confirmo".data then ConfirmResult.yes
      else if DENY_WORDS.any (fun w => containsL cleaned w.data) then ConfirmResult.no
      else ConfirmResult.waiting

/-- The wire message handed to `RabbitMQService.send_transfer`
(`transfer_data` in `_execute_transaction`): `conversation_id` / `user_id`
keys are present only when truthy. -/
structure TransferData where
  transaction_id : String
  recipient_phone : String
  amount : ℚ
  currency : String
  conversation_id : Option String
  user_id : Option Nat
deriving DecidableEq

/-- `_execute_transaction` (lines 448-502).  `genId` is the generated
`TXN-...` id; `publishRaises` tells whether `get_rabbitmq_service().send_transfer`
raises (connection construction can raise; `send_transfer` itself returns a
bool that the agent ignores).  Returns the new state and the transfer message
delivered to the publisher (`none` when the publish raised or the guard failed). -/
def executeTransaction (o : AgentOracle) (genId : String) (publishRaises : Bool)
    (st : AgentState) : AgentState × Option TransferData :=
  if !truthyS st.recipient_phone || !truthyQ st.amount then
    ({ st with
        messages := st.messages ++
          [assistantMsg "Necesito tanto el número de teléfono como el monto para ejecutar la transferencia."],
        confirmation_pending := false }, none)
  else
    match st.recipient_phone, st.amount with
    | some phone, some amount =>
      let bc := o.userBalance st.user_id
      let td : TransferData :=
        { transaction_id := genId
          recipient_phone := phone
          amount := amount
          currency := st.currency
          conversation_id := match st.conversation_id with
            | some n => if n ≠ 0 then some (toString n) else none
            | none => none
          user_id := match st.user_id with
            | some n => if n ≠ 0 then some n else none
            | none => none }
      let successMessage :=
        if publishRaises then
          "Tu solicitud ha sido registrada (ID: " ++ genId ++ "), pero hubo un problema al enviarla."
        else
          "Tu solicitud de transferencia ha sido enviada (ID: " ++ genId ++
            "). Procesando transferencia de $" ++ fmtMoney amount ++ " " ++ bc.2 ++
            " al " ++ phone ++ "..."
      ({ st with
          messages := st.messages ++ [assistantMsg successMessage],
          recipient_phone := none,
          amount := none,
          confirmation_pending := false,
          transaction_id := some genId },
       if publishRaises then none else some td)
    | _, _ => (st, none)

/-- One chat turn: the compiled LangGraph of `_build_graph` (lines 111-141),
with the conditional edges `_should_check_confirmation`, `_is_confirmed` and
`_after_extraction`.  Returns the final state and the transfer message
published during the turn, if any. -/
def runTurn (o : AgentOracle) (genId : String) (publishRaises : Bool)
    (st : AgentState) : AgentState × Option TransferData :=
  let st1 := processMessageNode o st
  if shouldCheckConfirmation st1 then
    let st2 := checkConfirmationNode o st1
    match isConfirmedFn st2.messages with
    | ConfirmResult.yes => executeTransaction o genId publishRaises st2
    | _ => (st2, none)
  else
    let st3 := extractInfoNode st1
    if afterExtraction st3 then
      let st4 := checkConfirmationNode o st3
      match isConfirmedFn st4.messages with
      | ConfirmResult.yes => executeTransaction o genId publishRaises st4
      | _ => (st4, none)
    else (st3, none)

/-! ## Transfer Request Publisher: `src/api-agent/src/common/rabbitmq_service.py` -/

/-- The `pika` exceptions distinguished by `send_transfer`. -/
inductive AmqpErr
  | connErr
  | chanErr
  | otherErr
deriving DecidableEq, Repr

/-- Outcomes of the four broker interactions a `send_transfer` call can make
(`none` = the call succeeds). -/
structure BrokerEnv where
  ensureConn : Option AmqpErr
  firstPublish : Option AmqpErr
  reconnect : Option AmqpErr
  secondPublish : Option AmqpErr
deriving DecidableEq

/-- Observable broker effects of `send_transfer`: each `basic_publish` call
with its `delivery_mode`, and each reconnection attempt. -/
inductive SendEvent
  | publishAttempt (deliveryMode : Nat)
  | reconnectAttempt
deriving DecidableEq, Repr

/-- The handler of `except (AMQPConnectionError, AMQPChannelError)` in
`send_transfer` (rabbitmq_service.py lines 100-130): on a connection/channel
error reconnect once and resend (both with `delivery_mode=2`); any failure of
that single retry, and every other exception, yields `False`. -/
def sendTransferHandler (env : BrokerEnv) (e : AmqpErr) (tr : List SendEvent) :
    Bool × List SendEvent :=
  if e = AmqpErr.connErr || e = AmqpErr.chanErr then
    match env.reconnect with
    | some _ => (false, tr ++ [SendEvent.reconnectAttempt])
    | none =>
      match env.secondPublish with
      | none => (true, tr ++ [SendEvent.reconnectAttempt, SendEvent.publishAttempt 2])
      | some _ => (false, tr ++ [SendEvent.reconnectAttempt, SendEvent.publishAttempt 2])
  else (false, tr)

/-- `send_transfer` (rabbitmq_service.py lines 55-130): ensure the connection,
publish with `delivery_mode=2`; on an AMQP connection/channel error perform
exactly one reconnect-and-resend; return `True`/`False`, never raising (every
exception type is caught).  Returns the result and the trace of broker calls. -/
def send_transfer (env : BrokerEnv) : Bool × List SendEvent :=
  match env.ensureConn with
  | some e => sendTransferHandler env e []
  | none =>
    match env.firstPublish with
    | none => (true, [SendEvent.publishAttempt 2])
    | some e => sendTransferHandler env e [SendEvent.publishAttempt 2]

/-! ## Transfer Processor:
`src/api-transactions/src/modules/transactions/services/transfer_consumer_service.py`
and `src/api-transactions/src/common/rabbitmq_consumer.py` -/

/-- A JSON scalar as found in a decoded transfer message. -/
inductive JVal
  | jstr (s : String)
  | jint (z : ℤ)
  | jnum (q : ℚ)
  | jnull
deriving DecidableEq, Repr

/-- A decoded transfer message: each field may be absent (`none`) or hold any
JSON scalar. -/
structure TransferMsg where
  transaction_id : Option JVal
  conversation_id : Option JVal
  recipient_phone : Option JVal
  amount : Option JVal
  user_id : Option JVal
  currency : Option JVal
deriving DecidableEq

/-- Validation findings of `_validate_message` (structured counterparts of the
Spanish error strings it accumulates). -/
inductive VErr
  | missingField (name : String)
  | wrongType (name : String)
  | amountNotPositive
  | amountNotNumber
  | phoneLength (n : Nat)
  | txIdLength (n : Nat)
  | convIdLength (n : Nat)
  | userIdNotPositive (z : ℤ)
deriving DecidableEq, Repr

/-- Python `str()` of a JSON scalar. -/
def jrepr : JVal → String
  | JVal.jstr s => s
  | JVal.jint z => toString z
  | JVal.jnum q => floatRepr q
  | JVal.jnull => "None"

/-- Python `int(s)` on a stripped string: optional sign then digits. -/
def pyInt (s : String) : Option ℤ :=
  let l := stripL s.data
  match l with
  | '-' :: ds => if ds ≠ [] && ds.all Char.isDigit then some (-(digitsToNat ds : ℤ)) else none
  | '+' :: ds => if ds ≠ [] && ds.all Char.isDigit then some ((digitsToNat ds : ℤ)) else none
  | ds => if ds ≠ [] && ds.all Char.isDigit then some ((digitsToNat ds : ℤ)) else none

/-- Python `float(s)` for the string shapes reaching `_validate_message`
(optional sign, digits, optional fractional part). -/
def pyFloat (s : String) : Option ℚ :=
  let l := stripL s.data
  let parse : List Char → Option ℚ := fun ds =>
    let ip := ds.takeWhile Char.isDigit
    match ds.dropWhile Char.isDigit with
    | [] => if ip ≠ [] then some ((digitsToNat ip : ℚ)) else none
    | '.' :: fs =>
      if fs.all Char.isDigit && (ip ≠ [] || fs ≠ []) then
        some ((digitsToNat ip : ℚ) + (digitsToNat fs : ℚ) / (10 : ℚ) ^ fs.length)
      else none
    | _ => none
  match l with
  | '-' :: ds => (parse ds).map Neg.neg
  | '+' :: ds => parse ds
  | ds => parse ds

/-- A required-field check of `_validate_message`: absent or `None` is a
missing field; a present value of the wrong type is a type error. -/
def checkRequired (name : String) (v : Option JVal) (ok : JVal → Bool) : List VErr :=
  match v with
  | none => [VErr.missingField name]
  | some JVal.jnull => [VErr.missingField name]
  | some x => if ok x then [] else [VErr.wrongType name]

/-- Type predicates of the `required_fields` table. -/
def isJStr : JVal → Bool
  | JVal.jstr _ => true
  | _ => false

/-- `amount` accepts `int` or `float`. -/
def isJNumOrInt : JVal → Bool
  | JVal.jnum _ => true
  | JVal.jint _ => true
  | _ => false

/-- `user_id` requires `int`. -/
def isJInt : JVal → Bool
  | JVal.jint _ => true
  | _ => false

/-- `_validate_message` (transfer_consumer_service.py lines 25-72): required
fields and types, `amount > 0`, length bounds on phone and ids, `user_id > 0`.
`int(message_data["user_id"])` on a non-numeric string raises an uncaught
`ValueError`, modelled with `Except.error`. -/
def validate_message (m : TransferMsg) : Except String (Bool × List VErr) :=
  let e1 := checkRequired "transaction_id" m.transaction_id isJStr
  let e2 := checkRequired "conversation_id" m.conversation_id isJStr
  let e3 := checkRequired "recipient_phone" m.recipient_phone isJStr
  let e4 := checkRequired "amount" m.amount isJNumOrInt
  let e5 := checkRequired "user_id" m.user_id isJInt
  let e6 := match m.amount with
    | some (JVal.jint z) => if z ≤ 0 then [VErr.amountNotPositive] else []
    | some (JVal.jnum q) => if q ≤ 0 then [VErr.amountNotPositive] else []
    | some (JVal.jstr s) =>
      match pyFloat s with
      | some q => if q ≤ 0 then [VErr.amountNotPositive] else []
      | none => [VErr.amountNotNumber]
    | _ => []
  let e7 := match m.recipient_phone with
    | some JVal.jnull => []
    | some v =>
      let n := (stripL (jrepr v).data).length
      if n = 0 || n > 32 then [VErr.phoneLength n] else []
    | none => []
  let e8 := match m.transaction_id with
    | some JVal.jnull => []
    | some v =>
      let n := (stripL (jrepr v).data).length
      if n = 0 || n > 255 then [VErr.txIdLength n] else []
    | none => []
  let e9 := match m.conversation_id with
    | some JVal.jnull => []
    | some v =>
      let n := (stripL (jrepr v).data).length
      if n = 0 || n > 255 then [VErr.convIdLength n] else []
    | none => []
  match m.user_id with
  | some JVal.jnull => Except.ok
      (let es := e1 ++ e2 ++ e3 ++ e4 ++ e5 ++ e6 ++ e7 ++ e8 ++ e9
       (es.isEmpty, es))
  | none => Except.ok
      (let es := e1 ++ e2 ++ e3 ++ e4 ++ e5 ++ e6 ++ e7 ++ e8 ++ e9
       (es.isEmpty, es))
  | some v =>
    let zOpt : Option ℤ := match v with
      | JVal.jint z => some z
      | JVal.jstr s => pyInt s
      | JVal.jnum q => some q.floor
      | JVal.jnull => none
    match zOpt with
    | none => Except.error "invalid literal for int() with base 10"
    | some z =>
      let e10 := if z ≤ 0 then [VErr.userIdNotPositive z] else []
      let es := e1 ++ e2 ++ e3 ++ e4 ++ e5 ++ e6 ++ e7 ++ e8 ++ e9 ++ e10
      Except.ok (es.isEmpty, es)

/-- Status of a `TransactionRecord`. -/
inductive TStatus
  | pending
  | completed
  | failed
deriving DecidableEq, Repr

/-- Durable transaction record (api-transactions `transaction_entity`). -/
structure TxRec where
  conversation_id : String
  transaction_id : String
  recipient_phone : String
  amount : ℚ
  status : TStatus
  error_message : Option String
deriving DecidableEq

/-- A user row (api-transactions `user_entity`): id, balance, currency. -/
structure UserRec where
  id : Nat
  balance : ℚ
  currency : Option String
deriving DecidableEq

/-- Database state visible to the transfer processor. -/
structure DbState where
  users : List UserRec
  transactions : List TxRec
deriving DecidableEq

/-- A `TransferResult` published on the response queue (`send_response`). -/
structure RespMsg where
  transaction_id : String
  conversation_id : String
  status : String
  message : String
  error_message : Option String
  balance_after : Option ℚ
  currency : Option String
  user_id : Option JVal
deriving DecidableEq

/-- Python exceptions distinguished by the consumer's dispatch. -/
inductive PErr
  | nameError (name : String)
  | valueError (msg : String)
  | otherError (msg : String)
deriving DecidableEq, Repr

/-- Result of one `TransferConsumerService._process_message` call: the
exception it propagates (if any), the database afterwards, and the
`TransferResult` messages it published. -/
structure ProcResult where
  error : Option PErr
  db : DbState
  responses : List RespMsg
deriving DecidableEq

/-- `TransferConsumerService._process_message` (transfer_consumer_service.py
lines 74-436).  Lines 75-78 read fields with defaults (pure).  Line 81 then
evaluates the f-string
`f"Iniciando procesamiento de transferencia: ... amount={amount} {currency}"`,
whose name `currency` is bound nowhere: it is not a parameter, is never
assigned in the function, and is neither imported nor defined at module level
(`message_data.get("currency")` is never read).  CPython therefore raises
`NameError: name \x27currency\x27 is not defined` before the `try` block at
line 85 is entered, so the validation, balance checks, record writes and
result publishes at lines 85-436 are all unreachable, the database is left
untouched and no response is sent. -/
def transfer_process_message (_m : TransferMsg) (db : DbState) : ProcResult :=
  { error := some (PErr.nameError "currency")
    db := db
    responses := [] }

/-- Broker acknowledgement decided for one delivery. -/
inductive Delivery
  | ack
  | nackRequeue
  | nackDrop
deriving DecidableEq, Repr

/-- `RabbitMQConsumer._process_message` (rabbitmq_consumer.py lines 126-179):
undecodable bodies are dropped (`requeue=False`); a handler `ValueError` is
dropped (`requeue=False`); any other handler exception is returned to the
broker (`requeue=True`); success is acked.  `body = none` models a JSON decode
failure. -/
def consumer_process_message (body : Option TransferMsg) (db : DbState) :
    Delivery × DbState × List RespMsg :=
  match body with
  | none => (Delivery.nackDrop, db, [])
  | some m =>
    let r := transfer_process_message m db
    match r.error with
    | none => (Delivery.ack, r.db, r.responses)
    | some (PErr.valueError _) => (Delivery.nackDrop, r.db, r.responses)
    | some _ => (Delivery.nackRequeue, r.db, r.responses)

/-! ## Concrete instances used in the theorems below -/

/-- Has the first send attempt of `send_transfer` failed with a
connection/channel error (the condition of the reconnect-and-resend clause)? -/
def firstAttemptConnOrChan (env : BrokerEnv) : Bool :=
  match env.ensureConn with
  | some AmqpErr.connErr => true
  | some AmqpErr.chanErr => true
  | some AmqpErr.otherErr => false
  | none =>
    match env.firstPublish with
    | some AmqpErr.connErr => true
    | some AmqpErr.chanErr => true
    | _ => false

/-- Count of `basic_publish` calls in a `send_transfer` trace. -/
def publishCount (tr : List SendEvent) : Nat :=
  tr.countP fun ev =>
    match ev with
    | SendEvent.publishAttempt _ => true
    | SendEvent.reconnectAttempt => false

/-- Are all `basic_publish` calls of a trace persistent (`delivery_mode = 2`)? -/
def allPersistent (tr : List SendEvent) : Bool :=
  tr.all fun ev =>
    match ev with
    | SendEvent.publishAttempt dm => dm == 2
    | SendEvent.reconnectAttempt => true

/-- A deterministic oracle for concrete evaluations: the LLM always answers
"ok" and the balance lookup finds no user. -/
def oracleC : AgentOracle :=
  { llm := fun _ => Except.ok "ok"
    userBalance := fun _ => (none, "COP") }

/-- A state awaiting confirmation whose last user message is the denial "no". -/
def stDeny : AgentState :=
  { messages := [{ role := Role.user, content := "hola" },
                 { role := Role.assistant, content := "escribe confirmo" },
                 { role := Role.user, content := "no" }]
    recipient_phone := some "3001234567"
    amount := some 100
    currency := "COP"
    confirmation_pending := true
    transaction_id := none
    error := none
    user_id := some 1
    conversation_id := some 5 }

/-- A state that has just been confirmed, as seen by `execute_transaction`. -/
def stExec : AgentState :=
  { messages := [{ role := Role.user, content := "confirmo" }]
    recipient_phone := some "3001234567"
    amount := some 100
    currency := "COP"
    confirmation_pending := true
    transaction_id := none
    error := none
    user_id := some 1
    conversation_id := some 5 }

/-- A transfer message with the required field `amount` missing (the malformed
message of the validation claims). -/
def c1msg : TransferMsg :=
  { transaction_id := some (JVal.jstr "TXN-C1")
    conversation_id := some (JVal.jstr "1")
    recipient_phone := some (JVal.jstr "3001234567")
    amount := none
    user_id := some (JVal.jint 1)
    currency := some (JVal.jstr "COP") }

/-- A schema-valid transfer of 100 for user 1. -/
def c2msg : TransferMsg :=
  { transaction_id := some (JVal.jstr "TXN-C2")
    conversation_id := some (JVal.jstr "1")
    recipient_phone := some (JVal.jstr "3009999999")
    amount := some (JVal.jnum 100)
    user_id := some (JVal.jint 1)
    currency := some (JVal.jstr "COP") }

/-- A database with a single user (id 1) holding balance 50 in COP. -/
def dbC : DbState :=
  { users := [{ id := 1, balance := 50, currency := some "COP" }]
    transactions := [] }

/-! ## Helper lemmas on characters -/

theorem pyLower_isDigit (c : Char) : (pyLower c).isDigit = c.isDigit := by
  unfold pyLower
  split <;> rfl

theorem pyLower_of_digit (c : Char) (h : c.isDigit = true) : pyLower c = c := by
  unfold pyLower
  split <;> first | rfl | (exact absurd h (by decide))

theorem ws_cases (c : Char) (h : c.isWhitespace = true) :
    c = ' ' ∨ c = '\t' ∨ c = '\r' ∨ c = '\n' := by
  simp [Char.isWhitespace] at h
  tauto

theorem pyLower_of_ws (c : Char) (h : c.isWhitespace = true) : pyLower c = c := by
  rcases ws_cases c h with h1 | h1 | h1 | h1 <;> subst h1 <;> rfl

theorem digit_not_ws (c : Char) (h : c.isDigit = true) : c.isWhitespace = false := by
  rcases hw : c.isWhitespace with _ | _
  · rfl
  · rcases ws_cases c hw with h1 | h1 | h1 | h1 <;> subst h1 <;> exact absurd h (by decide)

theorem digit_beq_false (c d : Char) (h : c.isDigit = true) (hd : d.isDigit = false) :
    (c == d) = false := by
  rcases hb : c == d with _ | _
  · rfl
  · have hcd : c = d := eq_of_beq hb
    subst hcd
    rw [h] at hd
    exact absurd hd (by simp)

theorem takeWhile_all_eq {p : Char → Bool} {l : List Char} (h : ∀ c ∈ l, p c = true) :
    l.takeWhile p = l := by
  induction l with
  | nil => rfl
  | cons c rest ih =>
    simp [List.takeWhile, h c (by simp)]
    exact fun x hx => h x (by simp [hx])

theorem dropWhile_all_eq {p : Char → Bool} {l : List Char} (h : ∀ c ∈ l, p c = true) :
    l.dropWhile p = [] := by
  induction l with
  | nil => rfl
  | cons c rest ih =>
    simp [List.dropWhile, h c (by simp)]
    exact fun x hx => h x (by simp [hx])

/-! ## Lemmas about the `\b\d{10}\b` scanner -/

theorem lastOr_cons (p : Char) (pre : List Char) (prev : Option Char) :
    lastOr (p :: pre) prev = lastOr pre (some p) := by
  cases pre with
  | nil => rfl
  | cons q rest =>
    cases hq : (q :: rest).getLast? with
    | none => exact absurd hq (by simp)
    | some c => simp [lastOr, List.getLast?_cons_cons, hq]

theorem lastOr_none_arg (pre : List Char) : lastOr pre none = pre.getLast? := by
  cases h : pre.getLast? <;> simp [lastOr, h]

theorem findTenRun_good {prev : Option Char} {s r : List Char}
    (h : findTenRun prev s = some r) : r.length = 10 ∧ r.all Char.isDigit = true := by
  induction s generalizing prev with
  | nil => simp [findTenRun] at h
  | cons c rest ih =>
    rw [findTenRun] at h
    split at h
    · rename_i hm
      injection h with hr
      subst hr
      simp only [matchTenAt, Bool.and_eq_true] at hm
      obtain ⟨⟨⟨h1, h2⟩, h3⟩, h4⟩ := hm
      exact ⟨by simpa using h2, h3⟩
    · exact ih h

theorem findTenRun_sound {prev : Option Char} {s r : List Char}
    (h : findTenRun prev s = some r) :
    ∃ pre post, s = pre ++ r ++ post ∧ nbOk (lastOr pre prev) = true ∧
      nbOk post.head? = true := by
  induction s generalizing prev with
  | nil => simp [findTenRun] at h
  | cons c rest ih =>
    rw [findTenRun] at h
    split at h
    · rename_i hm
      injection h with hr
      subst hr
      simp only [matchTenAt, Bool.and_eq_true] at hm
      obtain ⟨⟨⟨h1, h2⟩, h3⟩, h4⟩ := hm
      refine ⟨[], (c :: rest).drop 10, ?_, ?_, ?_⟩
      · simp
      · simpa [lastOr] using h1
      · exact h4
    · obtain ⟨pre, post, hdec, hb, hpost⟩ := ih h
      exact ⟨c :: pre, post, by simp [hdec], by rwa [lastOr_cons], hpost⟩

theorem findTenRun_complete {prev : Option Char} {s : List Char}
    (h : findTenRun prev s = none) :
    ∀ run pre post, s = pre ++ run ++ post → run.length = 10 →
      run.all Char.isDigit = true → nbOk (lastOr pre prev) = true →
      nbOk post.head? = true → False := by
  induction s generalizing prev with
  | nil =>
    intro run pre post hdec hlen _ _ _
    have hl : run.length = 0 := by
      have := congrArg List.length hdec
      simp at this
      omega
    omega
  | cons c rest ih =>
    intro run pre post hdec hlen hdig hb hpost
    rw [findTenRun] at h
    split at h
    · exact absurd h (by simp)
    · rename_i hm
      cases pre with
      | nil =>
        simp at hdec
        apply hm
        have htake : (c :: rest).take 10 = run := by
          rw [hdec, ← hlen]
          exact List.take_left run post
        have hdrop : (c :: rest).drop 10 = post := by
          rw [hdec, ← hlen]
          exact List.drop_left run post
        have hb' : nbOk prev = true := by simpa [lastOr] using hb
        simp [matchTenAt, htake, hdrop, hlen, hdig, hb', hpost]
      | cons p pre' =>
        have hc : c = p := by
          have := congrArg (fun l => l.head?) hdec
          simpa using this
        subst hc
        have hdec' : rest = pre' ++ run ++ post := by
          simpa using hdec
        have hb' : nbOk (lastOr pre' (some c)) = true := by
          rwa [lastOr_cons] at hb
        exact ih h run pre' post hdec' hlen hdig hb' hpost

theorem extractPhoneL_good {s r : List Char} (h : extractPhoneL s = some r) :
    r.length = 10 ∧ r.all Char.isDigit = true := by
  unfold extractPhoneL at h
  cases hf : findTenRun none s with
  | some r0 =>
    rw [hf] at h
    injection h with h
    subst h
    exact findTenRun_good hf
  | none =>
    rw [hf] at h
    simp only at h
    split at h
    · rename_i h10
      injection h with h
      subst h
      refine ⟨h10, ?_⟩
      simp [List.all_eq_true, List.mem_filter]
    · split at h
      · rename_i h10 h11
        injection h with h
        subst h
        constructor
        · simp [h11]
        · simp only [List.all_eq_true]
          intro c hc
          have : c ∈ s.filter Char.isDigit := List.drop_subset 1 _ hc
          exact (List.mem_filter.mp this).2
      · exact absurd h (by simp)

/-! ## C4: extract_phone_number -/

/-- C4 (counterexample): in the text "123-456-7890" every maximal digit run has
length 3, 3 or 4 — there is no 10-digit run — yet `extract_phone_number`
returns the phone "1234567890" through its strip-non-digits fallback, instead
of `none` as the claim states.  Conversely "a1234567890 and 123" contains a
10-digit maximal digit run, but its left neighbour is the word character "a",
so the `\b\d{10}\b` regex does not fire and the 13-digit fallback yields
`none` — the claim's first half fails on it as well. -/
theorem extract_phone_c4_counterexample :
    ((digitRuns ("123-456-7890".data)).map List.length = [3, 3, 4] ∧
      extract_phone_number "123-456-7890" = some "1234567890") ∧
    ((digitRuns ("a1234567890 and 123".data)).map List.length = [10, 3] ∧
      extract_phone_number "a1234567890 and 123" = none) := by
  refine ⟨⟨?_, ?_⟩, ?_, ?_⟩ <;> decide

/-- C4 (amended): `extract_phone_number` returns a 10-digit run exactly under
the regex-boundary reading, with the documented fallback otherwise: if the
text has a 10-digit substring delimited by word boundaries (neighbours not
letters/digits/underscore), it returns such a run (the leftmost); if it has
none, it returns the concatenation of all the digits of the text when there
are exactly 10 of them, their trailing 10 when there are 11, and `none`
otherwise. -/
theorem extract_phone_amended_spec (s : List Char) :
    ((∃ run, IsBoundaryTenRun s run) →
      ∃ r, extractPhoneL s = some r ∧ IsBoundaryTenRun s r) ∧
    ((∀ run, ¬ IsBoundaryTenRun s run) →
      extractPhoneL s =
        (if (s.filter Char.isDigit).length = 10 then some (s.filter Char.isDigit)
         else if (s.filter Char.isDigit).length = 11 then some ((s.filter Char.isDigit).drop 1)
         else none)) := by
  constructor
  · rintro ⟨run, pre, post, hdec, hlen, hdig, hb, hpost⟩
    cases hf : findTenRun none s with
    | none =>
      exact (findTenRun_complete hf run pre post hdec hlen hdig
        (by rwa [lastOr_none_arg]) hpost).elim
    | some r =>
      refine ⟨r, by simp [extractPhoneL, hf], ?_⟩
      obtain ⟨pre', post', hdec', hb', hpost'⟩ := findTenRun_sound hf
      obtain ⟨hlen', hdig'⟩ := findTenRun_good hf
      exact ⟨pre', post', hdec', hlen', hdig', by rwa [lastOr_none_arg] at hb', hpost'⟩
  · intro hno
    have hf : findTenRun none s = none := by
      cases hf : findTenRun none s with
      | none => rfl
      | some r =>
        exfalso
        obtain ⟨pre', post', hdec', hb', hpost'⟩ := findTenRun_sound hf
        obtain ⟨hlen', hdig'⟩ := findTenRun_good hf
        exact hno r ⟨pre', post', hdec', hlen', hdig',
          by rwa [lastOr_none_arg] at hb', hpost'⟩
    simp [extractPhoneL, hf]

/-- C4 (witness): the amended statement evaluated on concrete texts — a
boundary-delimited run in "a 1234567890 b" is found, and "tel 123 456"
(six digits, no boundary run) yields `none`. -/
theorem extract_phone_amended_witness :
    (∃ r, extractPhoneL ("a 1234567890 b".data) = some r ∧
      IsBoundaryTenRun ("a 1234567890 b".data) r) ∧
    extractPhoneL ("tel 123 456".data) = none := by
  constructor
  · exact (extract_phone_amended_spec ("a 1234567890 b".data)).1
      ⟨"1234567890".data, "a ".data, " b".data, by decide, by decide, by decide,
        by decide, by decide⟩
  · have hno : ∀ run, ¬ IsBoundaryTenRun ("tel 123 456".data) run := by
      rintro run ⟨pre, post, hdec, hlen, hdig, hb, hpost⟩
      exact findTenRun_complete
        (show findTenRun none ("tel 123 456".data) = none by decide)
        run pre post hdec hlen hdig (by rwa [lastOr_none_arg]) hpost
    have h := (extract_phone_amended_spec ("tel 123 456".data)).2 hno
    rw [h]
    decide

/-! ## C10: extraction implies validation -/

/-- C10: whatever `extract_phone_number` returns is accepted by
`validate_phone_number` — the extracted phone is always exactly 10 digits, so
validation succeeds with no reason. -/
theorem extract_phone_validates (s r : String)
    (h : extract_phone_number s = some r) : validate_phone_number r = (true, none) := by
  unfold extract_phone_number at h
  cases he : extractPhoneL s.data with
  | none => rw [he] at h; exact absurd h (by simp)
  | some rl =>
    rw [he] at h
    have hr : r = List.asString rl := by
      have h2 : some (List.asString rl) = some r := h
      exact (Option.some.inj h2).symm
    subst hr
    obtain ⟨hlen, hdig⟩ := extractPhoneL_good he
    have hdig' : ∀ c ∈ rl, c.isDigit = true := by
      simpa [List.all_eq_true] using hdig
    have hdata : (List.asString rl).data = rl := rfl
    have hkeep : rl.filter (fun c =>
        !(c.isWhitespace || c == '-' || c == '(' || c == ')')) = rl := by
      rw [List.filter_eq_self]
      intro c hc
      have hd := hdig' c hc
      simp [digit_not_ws c hd, digit_beq_false c '-' hd (by decide),
        digit_beq_false c '(' hd (by decide), digit_beq_false c ')' hd (by decide)]
    unfold validate_phone_number
    rw [hdata, hkeep]
    have hne : rl.isEmpty = false := by
      cases rl with
      | nil => simp at hlen
      | cons a b => rfl
    simp [hne, hdig, hlen]

/-- C10 (witness): extracting from a concrete message yields "3001234567",
which validation accepts. -/
theorem extract_phone_validates_witness :
    extract_phone_number "mi número es 3001234567" = some "3001234567" ∧
    validate_phone_number "3001234567" = (true, none) :=
  ⟨by decide, extract_phone_validates "mi número es 3001234567" "3001234567" (by decide)⟩

/-! ## C5: validate_amount -/

theorem mem_commaFix {l : List Char} {c : Char} (hc : c ∈ commaFix l) :
    c ∈ l ∨ c = '.' := by
  unfold commaFix at hc
  split at hc
  · exact Or.inl hc
  · exact Or.inl hc
  · rename_i d1 c2 rest2 heq
    split at hc
    · split at hc
      · simp only [List.mem_reverse, List.mem_cons] at hc
        rcases hc with rfl | rfl | hcr
        · left; rw [← List.mem_reverse, heq]; simp
        · right; rfl
        · left; rw [← List.mem_reverse, heq]; simp [hcr]
      · exact Or.inl hc
    · split at hc
      · exact Or.inl hc
      · rename_i c3 rest3
        split at hc
        · split at hc
          · simp only [List.mem_reverse, List.mem_cons] at hc
            rcases hc with rfl | rfl | rfl | hcr
            · left; rw [← List.mem_reverse, heq]; simp
            · left; rw [← List.mem_reverse, heq]; simp
            · right; rfl
            · left; rw [← List.mem_reverse, heq]; simp [hcr]
          · exact Or.inl hc
        · exact Or.inl hc

theorem mem_dotFix {l : List Char} {c : Char} (hc : c ∈ dotFix l) :
    c ∈ l ∨ c = '.' := by
  unfold dotFix at hc
  split at hc
  · exact Or.inl hc
  · simp only [List.mem_append, List.mem_cons] at hc
    rcases hc with hc | rfl | hc
    · have hc2 := List.mem_of_mem_filter hc
      rw [List.mem_reverse] at hc2
      have hc3 := (List.tail_sublist _).subset hc2
      have hc4 := (List.dropWhile_sublist _).subset hc3
      rw [List.mem_reverse] at hc4
      exact Or.inl hc4
    · exact Or.inr rfl
    · rw [List.mem_reverse] at hc
      have hc2 := (List.takeWhile_sublist _).subset hc
      rw [List.mem_reverse] at hc2
      exact Or.inl hc2

theorem commaFix_no_comma {l : List Char} (h : ',' ∉ l) : commaFix l = l := by
  unfold commaFix
  split
  · rfl
  · rfl
  · rename_i d1 c2 rest2 heq
    have h2 : ¬(c2 = ',') := by
      intro h2
      subst h2
      apply h
      rw [← List.mem_reverse, heq]
      simp
    rw [if_neg h2]
    split
    · rfl
    · rename_i c3 rest3
      have h3 : ¬(c3 = ',') := by
        intro h3
        subst h3
        apply h
        rw [← List.mem_reverse, heq]
        simp
      rw [if_neg h3]

theorem dotFix_of_no_dot {l : List Char} (h : '.' ∉ l) : dotFix l = l := by
  unfold dotFix
  rw [if_pos]
  rw [List.count_eq_zero.mpr h]
  omega

theorem findFirstNum_none {l : List Char} (h : ∀ c ∈ l, c.isDigit = false) :
    findFirstNum l = none := by
  induction l with
  | nil => rfl
  | cons c rest ih =>
    rw [findFirstNum, if_neg]
    · exact ih fun x hx => h x (by simp [hx])
    · simp [h c (by simp)]

theorem map_eq_self_of {f : Char → Char} {l : List Char} (h : ∀ c ∈ l, f c = c) :
    l.map f = l := by
  induction l with
  | nil => rfl
  | cons c rest ih =>
    rw [List.map_cons, h c (by simp), ih fun x hx => h x (by simp [hx])]

/-- Helper for C5: on a text with no digit at all, `validate_amount` fails with
the no-amount-found message. -/
theorem validate_amount_no_digit (s : String) (h : ∀ c ∈ s.data, c.isDigit = false) :
    validate_amount s =
      (false, none, some "No se pudo encontrar un monto válido en tu mensaje") := by
  unfold validate_amount
  have h0 : ∀ c ∈ (s.data.map pyLower).filter
      (fun c => !(c.isWhitespace || c == '$')), c.isDigit = false := by
    intro c hc
    have hm := List.mem_of_mem_filter hc
    obtain ⟨d, hd, rfl⟩ := List.mem_map.mp hm
    rw [pyLower_isDigit]
    exact h d hd
  have h1 : ∀ c ∈ commaFix ((s.data.map pyLower).filter
      (fun c => !(c.isWhitespace || c == '$'))), c.isDigit = false := by
    intro c hc
    rcases mem_commaFix hc with h' | rfl
    · exact h0 c h'
    · decide
  have h2 : ∀ c ∈ dotFix (commaFix ((s.data.map pyLower).filter
      (fun c => !(c.isWhitespace || c == '$')))), c.isDigit = false := by
    intro c hc
    rcases mem_dotFix hc with h' | rfl
    · exact h1 c h'
    · decide
  rw [findFirstNum_none h2]

/-- Helper for C5: a positive digit run surrounded only by whitespace and
currency symbols is accepted with its numeric value. -/
theorem validate_amount_positive (pre ds post : List Char)
    (hpre : ∀ c ∈ pre, c.isWhitespace = true ∨ c = '$')
    (hpost : ∀ c ∈ post, c.isWhitespace = true ∨ c = '$')
    (hne : ds ≠ []) (hdig : ∀ c ∈ ds, c.isDigit = true)
    (hpos : 0 < digitsToNat ds) :
    validate_amount (List.asString (pre ++ ds ++ post)) =
      (true, some ((digitsToNat ds : ℚ)), none) := by
  have hsidef : ∀ (side : List Char), (∀ c ∈ side, c.isWhitespace = true ∨ c = '$') →
      (side.map pyLower).filter (fun c => !(c.isWhitespace || c == '$')) = [] := by
    intro side hside
    rw [List.filter_eq_nil_iff]
    intro a ha
    obtain ⟨d, hd, rfl⟩ := List.mem_map.mp ha
    rcases hside d hd with hw | rfl
    · rw [pyLower_of_ws d hw]
      simp [hw]
    · simp [pyLower]
  have hdsmap : ds.map pyLower = ds := map_eq_self_of fun c hc => pyLower_of_digit c (hdig c hc)
  have hdsfil : ds.filter (fun c => !(c.isWhitespace || c == '$')) = ds := by
    rw [List.filter_eq_self]
    intro c hc
    have hd := hdig c hc
    simp [digit_not_ws c hd, digit_beq_false c '$' hd (by decide)]
  have hclean : (((pre ++ ds ++ post).map pyLower).filter
      (fun c => !(c.isWhitespace || c == '$'))) = ds := by
    rw [List.map_append, List.map_append, List.filter_append, List.filter_append,
      hsidef pre hpre, hsidef post hpost, hdsmap, hdsfil]
    simp
  have hdata : (List.asString (pre ++ ds ++ post)).data = pre ++ ds ++ post := rfl
  unfold validate_amount
  rw [hdata, hclean]
  have hnocomma : ',' ∉ ds := by
    intro hmem
    have := hdig ',' hmem
    exact absurd this (by decide)
  have hnodot : '.' ∉ ds := by
    intro hmem
    have := hdig '.' hmem
    exact absurd this (by decide)
  rw [commaFix_no_comma hnocomma, dotFix_of_no_dot hnodot]
  cases ds with
  | nil => exact absurd rfl hne
  | cons d ds' =>
    rw [findFirstNum, if_pos (hdig d (by simp))]
    have htok : numToken (d :: ds') = d :: ds' := by
      unfold numToken
      rw [takeWhile_all_eq hdig, dropWhile_all_eq hdig]
    rw [htok]
    have hparse : parseToken (d :: ds') = ((digitsToNat (d :: ds') : ℚ)) := by
      unfold parseToken
      rw [takeWhile_all_eq hdig, dropWhile_all_eq hdig]
    have hgt : ¬((digitsToNat (d :: ds') : ℚ) ≤ 0) := by
      rw [not_le]
      exact_mod_cast hpos
    dsimp only
    rw [hparse, if_neg hgt]

/-- C5 (counterexample): on the input "-5", denoting a negative number, the
claim demands failure, but the numeral regex `\d+\.?\d*` never matches the
sign, so `validate_amount` parses 5 and succeeds. -/
theorem validate_amount_c5_counterexample :
    validate_amount "-5" = (true, some 5, none) := by decide

/-- C5 (amended): `validate_amount` fails on "0" and on every input containing
no numeral, and succeeds with the parsed value on every positive numeral
surrounded by whitespace or currency symbols; an input denoting a negative
number such as "-5" is not rejected — the sign is ignored and the unsigned
value is accepted. -/
theorem validate_amount_amended_spec :
    validate_amount "0" = (false, none, some "El monto debe ser mayor a 0") ∧
    (∀ s : String, (∀ c ∈ s.data, c.isDigit = false) →
      validate_amount s =
        (false, none, some "No se pudo encontrar un monto válido en tu mensaje")) ∧
    (∀ pre ds post : List Char,
      (∀ c ∈ pre, c.isWhitespace = true ∨ c = '$') →
      (∀ c ∈ post, c.isWhitespace = true ∨ c = '$') →
      ds ≠ [] → (∀ c ∈ ds, c.isDigit = true) → 0 < digitsToNat ds →
      validate_amount (List.asString (pre ++ ds ++ post)) =
        (true, some ((digitsToNat ds : ℚ)), none)) :=
  ⟨by decide, validate_amount_no_digit, validate_amount_positive⟩

/-- C5 (witness): the amended statement on concrete inputs — "hola" has no
numeral and fails; "$ 100 " succeeds with value 100. -/
theorem validate_amount_amended_witness :
    validate_amount "hola" =
      (false, none, some "No se pudo encontrar un monto válido en tu mensaje") ∧
    validate_amount "$ 100 " = (true, some 100, none) := by
  constructor
  · exact validate_amount_amended_spec.2.1 "hola" (by decide)
  · have h := validate_amount_amended_spec.2.2 ['$', ' '] ['1', '0', '0'] [' ']
      (by decide) (by decide) (by decide) (by decide) (by decide)
    have heq : List.asString (['$', ' '] ++ ['1', '0', '0'] ++ [' ']) = "$ 100 " := by decide
    have hval : ((digitsToNat ['1', '0', '0'] : ℚ)) = 100 := by decide
    rw [heq, hval] at h
    exact h

/-! ## C6: the confirmation check -/

/-- C6: `_is_confirmed` answers `yes` exactly when the stripped, lowered last
user message equals the keyword "confirmo"; it answers `no` whenever that
cleaned message contains a deny keyword; in every other case (including the
absence of a user message) it answers `waiting`. -/
theorem is_confirmed_spec (msgs : List Msg) :
    (isConfirmedFn msgs = ConfirmResult.yes ↔
      ∃ m, lastUserMessage msgs = some m ∧ lowerL (stripL m.data) = "confirmo".data) ∧
    (∀ m, lastUserMessage msgs = some m →
      (DENY_WORDS.any fun w => containsL (lowerL (stripL m.data)) w.data) = true →
      isConfirmedFn msgs = ConfirmResult.no) ∧
    (∀ m, lastUserMessage msgs = some m →
      lowerL (stripL m.data) ≠ "confirmo".data →
      (DENY_WORDS.any fun w => containsL (lowerL (stripL m.data)) w.data) = false →
      isConfirmedFn msgs = ConfirmResult.waiting) ∧
    (lastUserMessage msgs = none → isConfirmedFn msgs = ConfirmResult.waiting) := by
  cases hl : lastUserMessage msgs with
  | none =>
    refine ⟨?_, ?_, ?_, ?_⟩
    · constructor
      · intro h
        rw [isConfirmedFn, hl] at h
        exact absurd h (by simp)
      · rintro ⟨m, hm, _⟩
        exact absurd hm (by simp)
    · intro m hm
      exact absurd hm (by simp)
    · intro m hm
      exact absurd hm (by simp)
    · intro _
      rw [isConfirmedFn, hl]
  | some m =>
    have key : isConfirmedFn msgs =
        (if m == "" then ConfirmResult.waiting
         else if lowerL (stripL m.data) == "confirmo".data then ConfirmResult.yes
         else if DENY_WORDS.any (fun w => containsL (lowerL (stripL m.data)) w.data) then
           ConfirmResult.no
         else ConfirmResult.waiting) := by
      rw [isConfirmedFn, hl]
    refine ⟨?_, ?_, ?_, ?_⟩
    · rw [key]
      by_cases h0 : (m == "") = true
      · rw [if_pos h0]
        have hm0 : m = "" := eq_of_beq h0
        subst hm0
        constructor
        · intro h
          exact absurd h (by simp)
        · rintro ⟨m', hm', hp⟩
          injection hm' with e
          subst e
          exact absurd hp (by decide)
      · rw [if_neg h0]
        by_cases h1 : (lowerL (stripL m.data) == "confirmo".data) = true
        · rw [if_pos h1]
          exact ⟨fun _ => ⟨m, rfl, eq_of_beq h1⟩, fun _ => rfl⟩
        · rw [if_neg h1]
          constructor
          · intro h
            split at h <;> exact absurd h (by simp)
          · rintro ⟨m', hm', hp⟩
            injection hm' with e
            subst e
            exact absurd (beq_iff_eq.mpr hp) h1
    · intro m' hm' hdeny
      injection hm' with e
      subst e
      rw [key]
      have h0 : ¬((m == "") = true) := by
        intro hb
        have hm0 : m = "" := eq_of_beq hb
        subst hm0
        exact absurd hdeny (by decide)
      rw [if_neg h0]
      have h1 : ¬((lowerL (stripL m.data) == "confirmo".data) = true) := by
        intro hb
        have heq : lowerL (stripL m.data) = "confirmo".data := eq_of_beq hb
        rw [heq] at hdeny
        exact absurd hdeny (by decide)
      rw [if_neg h1, if_pos hdeny]
    · intro m' hm' hnc hnd
      injection hm' with e
      subst e
      rw [key]
      by_cases h0 : (m == "") = true
      · rw [if_pos h0]
      · rw [if_neg h0, if_neg (fun hb => hnc (eq_of_beq hb)),
          if_neg (by rw [hnd]; exact fun hb => absurd hb (by simp))]
    · intro hnone
      exact absurd hnone (by simp)

/-- C6 (witness): "confirmo " (trailing space) and "Confirmo" confirm;
"confirmo ahora" does not (it waits); "no" denies. -/
theorem is_confirmed_spec_witness :
    isConfirmedFn [{ role := Role.user, content := "confirmo " }] = ConfirmResult.yes ∧
    isConfirmedFn [{ role := Role.user, content := "Confirmo" }] = ConfirmResult.yes ∧
    isConfirmedFn [{ role := Role.user, content := "confirmo ahora" }] = ConfirmResult.waiting ∧
    isConfirmedFn [{ role := Role.user, content := "no" }] = ConfirmResult.no := by
  refine ⟨?_, ?_, ?_, ?_⟩
  · exact (is_confirmed_spec _).1.mpr ⟨"confirmo ", by decide, by decide⟩
  · exact (is_confirmed_spec _).1.mpr ⟨"Confirmo", by decide, by decide⟩
  · exact (is_confirmed_spec _).2.2.1 "confirmo ahora" (by decide) (by decide) (by decide)
  · exact (is_confirmed_spec _).2.1 "no" (by decide) (by decide)

/-! ## C3 and C9: execute_transaction -/

/-- C3: whenever `_execute_transaction` runs with both `recipient_phone` and
`amount` present (truthy), the resulting state has `recipient_phone = none`,
`amount = none`, `confirmation_pending = false` and `transaction_id` set to the
generated id — so a set `transactionId` comes with a fully reset negotiation —
and, when the publisher does not raise, the `TransferRequest` built from the
state is handed to it. -/
theorem execute_transaction_resets (o : AgentOracle) (genId : String) (pr : Bool)
    (st : AgentState) (p : String) (a : ℚ)
    (hp : st.recipient_phone = some p) (hpne : p ≠ "")
    (ha : st.amount = some a) (hane : a ≠ 0) :
    (executeTransaction o genId pr st).1.recipient_phone = none ∧
    (executeTransaction o genId pr st).1.amount = none ∧
    (executeTransaction o genId pr st).1.confirmation_pending = false ∧
    (executeTransaction o genId pr st).1.transaction_id = some genId ∧
    (pr = false → (executeTransaction o genId pr st).2 = some
      { transaction_id := genId
        recipient_phone := p
        amount := a
        currency := st.currency
        conversation_id := match st.conversation_id with
          | some n => if n ≠ 0 then some (toString n) else none
          | none => none
        user_id := match st.user_id with
          | some n => if n ≠ 0 then some n else none
          | none => none }) := by
  have htp : truthyS st.recipient_phone = true := by
    rw [hp]
    simpa [truthyS] using hpne
  have hta : truthyQ st.amount = true := by
    rw [ha]
    simpa [truthyQ] using hane
  unfold executeTransaction
  rw [if_neg (by simp [htp, hta])]
  rw [hp, ha]
  cases pr <;> simp

/-- C3 (witness): the reset conjunction evaluated on a concrete confirmed
state, with the publisher succeeding. -/
theorem execute_transaction_resets_witness :
    (executeTransaction oracleC "TXN-A" false stExec).1.recipient_phone = none ∧
    (executeTransaction oracleC "TXN-A" false stExec).1.amount = none ∧
    (executeTransaction oracleC "TXN-A" false stExec).1.confirmation_pending = false ∧
    (executeTransaction oracleC "TXN-A" false stExec).1.transaction_id = some "TXN-A" ∧
    (executeTransaction oracleC "TXN-A" false stExec).2 = some
      { transaction_id := "TXN-A"
        recipient_phone := "3001234567"
        amount := 100
        currency := "COP"
        conversation_id := some "5"
        user_id := some 1 } := by
  have h := execute_transaction_resets oracleC "TXN-A" false stExec "3001234567" 100
    (by decide) (by decide) (by decide) (by decide)
  refine ⟨h.1, h.2.1, h.2.2.1, h.2.2.2.1, ?_⟩
  rw [h.2.2.2.2 rfl]
  decide

/-- C9: when publishing raises inside `_execute_transaction`, the negotiation
is still consumed — fields cleared, `confirmation_pending` false,
`transaction_id` set — no `TransferRequest` reaches the publisher, and the
assistant message reports the request as registered with a sending problem. -/
theorem execute_transaction_publish_error (o : AgentOracle) (genId : String)
    (st : AgentState) (p : String) (a : ℚ)
    (hp : st.recipient_phone = some p) (hpne : p ≠ "")
    (ha : st.amount = some a) (hane : a ≠ 0) :
    (executeTransaction o genId true st).1.recipient_phone = none ∧
    (executeTransaction o genId true st).1.amount = none ∧
    (executeTransaction o genId true st).1.confirmation_pending = false ∧
    (executeTransaction o genId true st).1.transaction_id = some genId ∧
    (executeTransaction o genId true st).2 = none ∧
    (executeTransaction o genId true st).1.messages = st.messages ++
      [assistantMsg ("Tu solicitud ha sido registrada (ID: " ++ genId ++
        "), pero hubo un problema al enviarla.")] := by
  have htp : truthyS st.recipient_phone = true := by
    rw [hp]
    simpa [truthyS] using hpne
  have hta : truthyQ st.amount = true := by
    rw [ha]
    simpa [truthyQ] using hane
  unfold executeTransaction
  rw [if_neg (by simp [htp, hta])]
  rw [hp, ha]
  simp

/-- C9 (witness): the publish-failure behaviour on a concrete state. -/
theorem execute_transaction_publish_error_witness :
    (executeTransaction oracleC "TXN-B" true stExec).1.recipient_phone = none ∧
    (executeTransaction oracleC "TXN-B" true stExec).1.transaction_id = some "TXN-B" ∧
    (executeTransaction oracleC "TXN-B" true stExec).2 = none ∧
    (executeTransaction oracleC "TXN-B" true stExec).1.messages = stExec.messages ++
      [assistantMsg "Tu solicitud ha sido registrada (ID: TXN-B), pero hubo un problema al enviarla."] := by
  have h := execute_transaction_publish_error oracleC "TXN-B" stExec "3001234567" 100
    (by decide) (by decide) (by decide) (by decide)
  exact ⟨h.1, h.2.2.2.1, h.2.2.2.2.1, h.2.2.2.2.2⟩

/-! ## C7: denial while a confirmation is pending -/

/-- C7 (amended): when a confirmation is pending and `_is_confirmed` evaluates
the turn to `no`, the whole turn is the identity — it ends at `END` with no
transfer published and the state unchanged; in particular
`confirmation_pending` remains `true` and is not cleared. -/
theorem run_turn_deny (o : AgentOracle) (genId : String) (pr : Bool)
    (st : AgentState) (hpend : st.confirmation_pending = true)
    (hno : isConfirmedFn st.messages = ConfirmResult.no) :
    runTurn o genId pr st = (st, none) := by
  have hproc : processMessageNode o st = st := by
    unfold processMessageNode
    rw [if_pos hpend]
  have hcheck : checkConfirmationNode o st = st := by
    unfold checkConfirmationNode
    rw [if_neg (by simp [hpend])]
  unfold runTurn
  rw [hproc]
  rw [if_pos (by unfold shouldCheckConfirmation; rw [if_pos hpend])]
  rw [hcheck]
  dsimp only
  rw [hno]

/-- C7 (counterexample): on the concrete pending state whose last user message
is "no", the turn publishes nothing and terminates, but `confirmation_pending`
is still `true` afterwards — it is not cleared as the claim states. -/
theorem run_turn_deny_counterexample :
    (runTurn oracleC "TXN-C" false stDeny).2 = none ∧
    (runTurn oracleC "TXN-C" false stDeny).1.confirmation_pending = true ∧
    (runTurn oracleC "TXN-C" false stDeny).1 = stDeny := by
  decide

/-- C7 (witness for the amended statement): the deny turn on the concrete
state is the identity. -/
theorem run_turn_deny_witness :
    runTurn oracleC "TXN-D" false stDeny = (stDeny, none) :=
  run_turn_deny oracleC "TXN-D" false stDeny (by decide) (by decide)

/-! ## C8: the publisher contract -/

/-- C8: `send_transfer` always returns a boolean (every exception class is
caught, so nothing propagates to the caller — totality of this function is the
embedding of that fact); every `basic_publish` it performs is persistent
(`delivery_mode = 2`); it never reconnects more than once; and when the first
attempt fails with a connection/channel error it performs exactly one
reconnect, at most two publish calls in total, and succeeds exactly when both
the reconnect and the resend succeed. -/
theorem send_transfer_spec (env : BrokerEnv) :
    allPersistent (send_transfer env).2 = true ∧
    (send_transfer env).2.count SendEvent.reconnectAttempt ≤ 1 ∧
    (firstAttemptConnOrChan env = true →
      (send_transfer env).2.count SendEvent.reconnectAttempt = 1 ∧
      publishCount (send_transfer env).2 ≤ 2 ∧
      ((send_transfer env).1 = true ↔
        env.reconnect = none ∧ env.secondPublish = none)) := by
  obtain ⟨e1, e2, e3, e4⟩ := env
  rcases e1 with _ | (_ | _ | _) <;> rcases e2 with _ | (_ | _ | _) <;>
    rcases e3 with _ | (_ | _ | _) <;> rcases e4 with _ | (_ | _ | _) <;>
    first
      | exact ⟨by decide, by decide, fun h => absurd h (by decide)⟩
      | exact ⟨by decide, by decide, fun _ => ⟨by decide, by decide, by decide⟩⟩

/-- C8 (witness): a run whose first publish hits a connection error and whose
reconnect and resend succeed: one reconnect, two persistent publishes, ok. -/
theorem send_transfer_spec_witness :
    allPersistent (send_transfer ⟨none, some AmqpErr.connErr, none, none⟩).2 = true ∧
    (send_transfer ⟨none, some AmqpErr.connErr, none, none⟩).2.count
      SendEvent.reconnectAttempt = 1 ∧
    publishCount (send_transfer ⟨none, some AmqpErr.connErr, none, none⟩).2 ≤ 2 ∧
    (send_transfer ⟨none, some AmqpErr.connErr, none, none⟩).1 = true := by
  have h := send_transfer_spec ⟨none, some AmqpErr.connErr, none, none⟩
  have h3 := h.2.2 (by decide)
  exact ⟨h.1, h3.1, h3.2.1, h3.2.2.mpr ⟨rfl, rfl⟩⟩

/-! ## C1 and C2: the transfer processor dies on an unbound name -/

/-- C1: the claim describes the intended validation path — and indeed
`_validate_message` rejects the amount-less message with exactly the missing
`amount` error — but the consumer never reaches it: `_process_message` raises
`NameError` on the unbound name `currency` at its first logging statement, so
the malformed message produces no `failed` record, no `failed` result, and is
nacked with `requeue=True` (redelivered forever) instead of being dropped. -/
theorem transfer_validation_never_runs :
    validate_message c1msg = Except.ok (false, [VErr.missingField "amount"]) ∧
    transfer_process_message c1msg dbC =
      { error := some (PErr.nameError "currency"), db := dbC, responses := [] } ∧
    consumer_process_message (some c1msg) dbC = (Delivery.nackRequeue, dbC, []) := by
  refine ⟨rfl, rfl, rfl⟩

/-- C2: a schema-valid transfer of 100 for the user with balance 50 passes
`_validate_message`, but the processor aborts with the `currency` `NameError`
before any business check: the balance stays untouched (vacuously), yet no
`failed` record is created, no `failed` result naming the two figures is
published, and the message is requeued instead of acked. -/
theorem insufficient_balance_never_runs :
    validate_message c2msg = Except.ok (true, []) ∧
    consumer_process_message (some c2msg) dbC = (Delivery.nackRequeue, dbC, []) ∧
    (consumer_process_message (some c2msg) dbC).2.1.users =
      [{ id := 1, balance := 50, currency := some "COP" }] := by
  refine ⟨rfl, rfl, rfl⟩
